import Mathlib

/-!
Shallow embedding of the github-pr-resource data-access layer.

The embedding covers `models.go` (Source, Validate, Version, NewVersion,
PullRequest and friends) and the GithubClient file (parseRepository,
NewGithubClient, SearchPullRequests, GetPullRequest, GetChangedFiles,
UpdateCommitStatus, DeletePreviousComments).  Network calls are modelled
as explicit provider functions (page fetchers / deletion oracles) passed
in as arguments; loops over the wire become structural recursion, with a
fuel parameter where the Go loop has no a-priori bound.  Go strings are
Lean `String`s, Go `int` is `Int`, `time.Time` / `githubv4.DateTime`
values are carried as opaque strings, and fallible Go functions
returning `(T, error)` become `Except String T`.
-/

namespace Resource

/-- Model of Go `strings.Split` with a one-character separator, over the
character list: splits at every occurrence of the separator, keeping
empty fields, and maps the empty input to `[[]]`. -/
def goSplitChar (sep : Char) : List Char → List (List Char)
  | [] => [[]]
  | c :: rest =>
    if c = sep then [] :: goSplitChar sep rest
    else
      match goSplitChar sep rest with
      | g :: gs => (c :: g) :: gs
      | [] => [[c]]

/-- Go `strings.Split(s, sep)` for a one-character separator. -/
def goSplit (sep : Char) (s : String) : List String :=
  (goSplitChar sep s.data).map (fun cs => String.mk cs)

/-- Go `strings.ToLower` (character-wise lowering; the statuses passed
through it in this code base are ASCII). -/
def goToLower (s : String) : String :=
  String.mk (s.data.map Char.toLower)

/-- Go `strings.Join`. -/
def goJoin (elems : List String) (sep : String) : String :=
  String.intercalate sep elems

/-- Decimal value of a digit list (most significant first). -/
def natOfDigits (ds : List Char) : Nat :=
  ds.foldl (fun n c => 10 * n + (c.toNat - 48)) 0

/-- Model of Go `strconv.Atoi`: an optional sign followed by at least
one decimal digit; anything else is a conversion error (`none`).
(The 64-bit range check of the Go implementation is not modelled; no
claim depends on overflow.) -/
def goAtoi (s : String) : Option Int :=
  match s.data with
  | [] => none
  | '+' :: ds =>
    if ds ≠ [] ∧ ds.all Char.isDigit then some (Int.ofNat (natOfDigits ds)) else none
  | '-' :: ds =>
    if ds ≠ [] ∧ ds.all Char.isDigit then some (-(Int.ofNat (natOfDigits ds))) else none
  | ds =>
    if ds.all Char.isDigit then some (Int.ofNat (natOfDigits ds)) else none

/-- `PullRequestObject` of models.go (the nested anonymous
`Repository struct { URL string }` is flattened to `RepositoryURL`;
`githubv4.PullRequestState` and `githubv4.DateTime` are carried as
strings). -/
structure PullRequestObject where
  ID : String
  Number : Int
  Title : String
  URL : String
  BaseRefName : String
  HeadRefName : String
  RepositoryURL : String
  IsCrossRepository : Bool
  IsDraft : Bool
  State : String
  UpdatedAt : String
  deriving Repr, DecidableEq

/-- `CommitObject` of models.go (the nested `Author.User.Login` and
`Author.Email` are flattened). -/
structure CommitObject where
  ID : String
  OID : String
  CommittedDate : String
  Message : String
  AuthorLogin : String
  AuthorEmail : String
  deriving Repr, DecidableEq

/-- `ChangedFileObject` of models.go. -/
structure ChangedFileObject where
  Path : String
  deriving Repr, DecidableEq

/-- `LabelObject` of models.go. -/
structure LabelObject where
  Name : String
  deriving Repr, DecidableEq

/-- `PullRequest` of models.go; the Go struct embeds
`PullRequestObject`, modelled here as the field `pullRequestObject`. -/
structure PullRequest where
  pullRequestObject : PullRequestObject
  Tip : CommitObject
  ApprovedReviewCount : Int
  Labels : List LabelObject
  deriving Repr, DecidableEq

/-- `Version` of models.go (`UpdatedTime` is the opaque timestamp
string). -/
structure Version where
  PR : String
  Commit : String
  UpdatedTime : String
  ApprovedReviewCount : String
  State : String
  deriving Repr, DecidableEq

/-- Go `strconv.Itoa`. -/
def goItoa (n : Int) : String :=
  toString n

/-- `NewVersion` of models.go. -/
def NewVersion (p : PullRequest) : Version :=
  { PR := goItoa p.pullRequestObject.Number
    Commit := p.Tip.OID
    UpdatedTime := p.pullRequestObject.UpdatedAt
    ApprovedReviewCount := goItoa p.ApprovedReviewCount
    State := p.pullRequestObject.State }

/-- `Source` of models.go (`States` entries are the
`githubv4.PullRequestState` string values). -/
structure Source where
  Repository : String
  AccessToken : String
  V3Endpoint : String
  V4Endpoint : String
  Paths : List String
  IgnorePaths : List String
  DisableCISkip : Bool
  DisableGitLFS : Bool
  SkipSSLVerification : Bool
  DisableForks : Bool
  IgnoreDrafts : Bool
  GitCryptKey : String
  BaseBranch : String
  RequiredReviewApprovals : Int
  Labels : List String
  States : List String
  deriving Repr, DecidableEq

/-- The error text Validate produces for a state outside
OPEN/CLOSED/MERGED (models.go line 52). -/
def stateErrMsg (st : String) : String :=
  "states value \"" ++ st ++ "\" must be one of: OPEN, MERGED, CLOSED"

/-- The `for _, state := range s.States` loop of `Validate`
(models.go lines 46-54): the switch accepts OPEN, CLOSED and MERGED and
returns an error naming the first other value. -/
def checkStates : List String → Option String
  | [] => none
  | st :: rest =>
    if st = "OPEN" ∨ st = "CLOSED" ∨ st = "MERGED" then checkStates rest
    else some (stateErrMsg st)

/-- `Source.Validate` of models.go: `none` is Go's `nil` error. -/
def Source.Validate (s : Source) : Option String :=
  if s.AccessToken = "" then some ("access_token must be set")
  else if s.Repository = "" then some ("repository must be set")
  else if s.V3Endpoint ≠ "" ∧ s.V4Endpoint = "" then
    some ("v4_endpoint must be set together with v3_endpoint")
  else if s.V4Endpoint ≠ "" ∧ s.V3Endpoint = "" then
    some ("v3_endpoint must be set together with v4_endpoint")
  else checkStates s.States

/-- `parseRepository` of the GithubClient file: split on "/" and fail
unless the split has exactly two parts. -/
def parseRepository (s : String) : Except String (String × String) :=
  match goSplit '/' s with
  | [a, b] => Except.ok (a, b)
  | _ => Except.error ("malformed repository")

/-- The fields of `GithubClient` that the pure model needs (the
authenticated V3/V4 protocol clients are I/O objects, modelled instead
by the provider functions each operation takes). -/
structure GithubClient where
  Owner : String
  Repository : String
  deriving Repr, DecidableEq

/-- `NewGithubClient`, restricted to its pure part: the repository
split.  (oauth2/TLS client wiring and endpoint URL parsing are I/O and
not modelled; they do not touch owner/repository.) -/
def NewGithubClient (s : Source) : Except String GithubClient :=
  match parseRepository s.Repository with
  | Except.error e => Except.error e
  | Except.ok (owner, repository) =>
    Except.ok { Owner := owner, Repository := repository }

/-- The error text of Go `strconv.Atoi` on a non-numeric string (the
out-of-range case is not modelled). -/
def atoiErr (s : String) : String :=
  "strconv.Atoi: parsing \"" ++ s ++ "\": invalid syntax"

/-- Component processing of Go `path.Clean`: empty and "." components
are dropped; ".." pops the last kept component, except that on a rooted
path a ".." at the top is dropped and on an unrooted path it is kept
when there is nothing to pop (or the top is itself ".."). `acc` holds
the kept components in reverse. -/
def cleanComps (rooted : Bool) : List String → List String → List String
  | acc, [] => acc.reverse
  | acc, c :: rest =>
    if c = "" ∨ c = "." then cleanComps rooted acc rest
    else if c = ".." then
      if rooted then
        match acc with
        | _ :: tail => cleanComps rooted tail rest
        | [] => cleanComps rooted [] rest
      else
        match acc with
        | top :: tail =>
          if top = ".." then cleanComps rooted (c :: top :: tail) rest
          else cleanComps rooted tail rest
        | [] => cleanComps rooted [c] rest
    else cleanComps rooted (c :: acc) rest

/-- Go `path.Clean` (lexical cleaning, functional formulation of the
Go standard library algorithm). -/
def pathClean (p : String) : String :=
  if p = "" then "."
  else
    let rooted := p.data.head? = some '/'
    let comps := cleanComps rooted [] (goSplit '/' p)
    if rooted then "/" ++ goJoin comps "/"
    else if comps = [] then "."
    else goJoin comps "/"

/-- Go `path.Join` for two elements: leading empty elements are
skipped, the rest are joined with "/" and cleaned; all-empty input
yields "". -/
def pathJoin (a b : String) : String :=
  if a ≠ "" then pathClean (a ++ "/" ++ b)
  else if b ≠ "" then pathClean b
  else ""

/-- The two process-environment values read by UpdateCommitStatus
(`ATC_EXTERNAL_URL` and `BUILD_ID`). -/
structure Env where
  atcExternalURL : String
  buildID : String
  deriving Repr, DecidableEq

/-- The `github.RepoStatus` payload UpdateCommitStatus hands to
`V3.Repositories.CreateStatus`. -/
structure RepoStatus where
  State : String
  TargetURL : String
  Description : String
  Context : String
  deriving Repr, DecidableEq

/-- `UpdateCommitStatus` of the GithubClient file, as the pure mapping
from its arguments and the environment to the RepoStatus payload sent;
`commitRef` is forwarded unchanged as the ref argument of the API call
and does not enter the payload. -/
def UpdateCommitStatus (env : Env) (commitRef baseContext statusContext status targetURL description : String) :
    RepoStatus :=
  let baseContext := if baseContext = "" then "concourse-ci" else baseContext
  let statusContext := if statusContext = "" then "status" else statusContext
  let targetURL :=
    if targetURL = "" then goJoin [env.atcExternalURL, "builds", env.buildID] "/" else targetURL
  let description := if description = "" then "Concourse CI build " ++ status else description
  { State := goToLower status
    TargetURL := targetURL
    Description := description
    Context := pathJoin baseContext statusContext }

/-- One node of the SearchPullRequests response: the pull request with
its review count, commit edges (the query requests `last:1`) and label
edges (the query requests `first:100`). -/
structure SearchNode where
  pullRequestObject : PullRequestObject
  reviewsTotalCount : Int
  commitEdges : List CommitObject
  labelEdges : List LabelObject
  deriving Repr, DecidableEq

/-- One page of the SearchPullRequests response, with its
`PageInfo`. -/
structure SearchPage where
  nodes : List SearchNode
  endCursor : String
  hasNextPage : Bool
  deriving Repr, DecidableEq

/-- The label slice built per node (SearchPullRequests lines 148-151):
`make([]LabelObject, len(edges))` allocates `len(edges)` zero-valued
labels, and the loop then `append`s each fetched label after them. -/
def nodeLabels (n : SearchNode) : List LabelObject :=
  n.labelEdges.foldl (fun acc l => acc ++ [l])
    (List.replicate n.labelEdges.length ({ Name := "" } : LabelObject))

/-- Per-node body of the SearchPullRequests loop: one PullRequest is
appended per commit edge of the node. -/
def processNode (n : SearchNode) : List PullRequest :=
  n.commitEdges.map (fun c =>
    ({ pullRequestObject := n.pullRequestObject
       Tip := c
       ApprovedReviewCount := n.reviewsTotalCount
       Labels := nodeLabels n } : PullRequest))

/-- All PullRequests produced from one response page. -/
def searchPageItems (page : SearchPage) : List PullRequest :=
  page.nodes.foldl (fun acc n => acc ++ processNode n) []

/-- The `for` loop of SearchPullRequests.  `provider` maps a cursor to
the page the server would return for it, "" being the
start-of-results sentinel.  The graphql tag of the query is
`search(query:$searchQuery,first:$searchFirst)`: it contains no cursor
variable, so although the loop stores the page's end cursor into
`vars["prCursor"]`, no query reads it and every iteration requests the
first page (`provider ""`).  The loop's break condition in the source
reads `query.Repository.PullRequests.PageInfo.HasNextPage`, a field
that does not exist on the declared query struct (whose only page info
is `query.Search.PageInfo`); it is modelled as the fetched page's
`hasNextPage`.  `fuel` bounds the otherwise unbounded loop: `none`
means the loop has not terminated within `fuel` iterations. -/
def searchPullRequestsLoop (provider : String → SearchPage) :
    Nat → List PullRequest → Option (List PullRequest)
  | 0, _ => none
  | fuel + 1, response =>
    let page := provider ("")
    let response := response ++ searchPageItems page
    if page.hasNextPage then searchPullRequestsLoop provider fuel response
    else some response

/-- `SearchPullRequests` of the GithubClient file (accumulator starts
empty). -/
def SearchPullRequests (provider : String → SearchPage) (fuel : Nat) : Option (List PullRequest) :=
  searchPullRequestsLoop provider fuel []

/-- The GetPullRequest response: the PullRequestObject of the numbered
PR and its commit edges (the query requests `last:100`, so the window
holds up to the 100 most recent commits). -/
structure PRWindow where
  pullRequestObject : PullRequestObject
  commitEdges : List CommitObject
  deriving Repr, DecidableEq

/-- The commit scan of GetPullRequest (lines 308-319): return the
PullRequest built from the first commit whose OID equals the requested
ref — only the PullRequestObject and the Tip are populated, the other
fields keep their Go zero values — or the distinct not-found error
after the window is exhausted. -/
def commitScan (obj : PullRequestObject) (commitRef : String) :
    List CommitObject → Except String PullRequest
  | [] => Except.error ("commit with ref '" ++ commitRef ++ "' does not exist")
  | c :: rest =>
    if c.OID = commitRef then
      Except.ok ({ pullRequestObject := obj
                   Tip := c
                   ApprovedReviewCount := 0
                   Labels := [] } : PullRequest)
    else commitScan obj commitRef rest

/-- `GetPullRequest` of the GithubClient file: parse the PR number,
fetch the commit window for it, scan for the ref. -/
def GetPullRequest (provider : Int → PRWindow) (prNumber commitRef : String) :
    Except String PullRequest :=
  match goAtoi prNumber with
  | none =>
    Except.error ("failed to convert pull request number to int: " ++ atoiErr prNumber)
  | some pr =>
    let window := provider pr
    commitScan window.pullRequestObject commitRef window.commitEdges

/-- One page of the GetChangedFiles response. -/
structure FilePage where
  fileEdges : List String
  endCursor : String
  hasNextPage : Bool
  deriving Repr, DecidableEq

/-- The variable map GetChangedFiles sends with each query; these are
exactly the variables the query's graphql tags reference. -/
structure FileQueryVars where
  repositoryOwner : String
  repositoryName : String
  prNumber : Int
  changedFilesFirst : Int
  changedFilesEndCursor : String
  deriving Repr, DecidableEq

/-- The `for` loop of GetChangedFiles: each iteration queries with the
current offset, appends the page's paths, and either stops (no next
page) or continues from the page's end cursor.  The result pairs the
sequence of issued queries with the accumulated file list; `none`
means the loop has not terminated within `fuel` iterations. -/
def getChangedFilesLoop (client : GithubClient) (pr : Int) (provider : FileQueryVars → FilePage) :
    Nat → String → List FileQueryVars → List ChangedFileObject →
    Option (List FileQueryVars × List ChangedFileObject)
  | 0, _, _, _ => none
  | fuel + 1, offset, queries, cfo =>
    let vars : FileQueryVars :=
      { repositoryOwner := client.Owner
        repositoryName := client.Repository
        prNumber := pr
        changedFilesFirst := 100
        changedFilesEndCursor := offset }
    let page := provider vars
    let cfo := cfo ++ page.fileEdges.map (fun p => ({ Path := p } : ChangedFileObject))
    let queries := queries ++ [vars]
    if page.hasNextPage then
      getChangedFilesLoop client pr provider fuel page.endCursor queries cfo
    else some (queries, cfo)

/-- `GetChangedFiles` of the GithubClient file.  The Go signature
accepts `commitRef`, but the function body never reads it: the query
is built only from owner, name, PR number, page size and cursor.
`none` means the page loop has not terminated within `fuel`
iterations. -/
def GetChangedFiles (client : GithubClient) (provider : FileQueryVars → FilePage)
    (prNumber commitRef : String) (fuel : Nat) :
    Option (Except String (List FileQueryVars × List ChangedFileObject)) :=
  match goAtoi prNumber with
  | none =>
    some (Except.error ("failed to convert pull request number to int: " ++ atoiErr prNumber))
  | some pr =>
    (getChangedFilesLoop client pr provider fuel ("") [] []).map (fun r => Except.ok r)

/-- One comment edge of the DeletePreviousComments query. -/
structure CommentNode where
  databaseId : Int
  authorLogin : String
  deriving Repr, DecidableEq

/-- The DeletePreviousComments response: the viewer's login and the PR's
comment edges (the query requests `last:100`). -/
structure CommentsResponse where
  viewerLogin : String
  commentEdges : List CommentNode
  deriving Repr, DecidableEq

/-- The deletion loop of DeletePreviousComments (lines 393-400): for
each comment edge in order whose author login equals the viewer's
login, call the V3 delete; on the first failure return that error at
once.  `del` models `V3.Issues.DeleteComment` (`none` = success).  The
result pairs the ids for which a deletion call was issued, in order,
with the final outcome (`none` = Go's `nil`). -/
def deleteCommentsLoop (viewer : String) (del : Int → Option String) :
    List CommentNode → List Int × Option String
  | [] => ([], none)
  | e :: rest =>
    if e.authorLogin = viewer then
      match del e.databaseId with
      | some err => ([e.databaseId], some err)
      | none =>
        let r := deleteCommentsLoop viewer del rest
        (e.databaseId :: r.1, r.2)
    else deleteCommentsLoop viewer del rest

/-- `DeletePreviousComments` of the GithubClient file: parse the PR
number, fetch viewer and comments, run the deletion loop. -/
def DeletePreviousComments (resp : CommentsResponse) (del : Int → Option String)
    (prNumber : String) : List Int × Option String :=
  match goAtoi prNumber with
  | none =>
    ([], some ("failed to convert pull request number to int: " ++ atoiErr prNumber))
  | some _ => deleteCommentsLoop resp.viewerLogin del resp.commentEdges

/-- A Source with every field at its Go zero value. -/
def emptySource : Source :=
  { Repository := ""
    AccessToken := ""
    V3Endpoint := ""
    V4Endpoint := ""
    Paths := []
    IgnorePaths := []
    DisableCISkip := false
    DisableGitLFS := false
    SkipSSLVerification := false
    DisableForks := false
    IgnoreDrafts := false
    GitCryptKey := ""
    BaseBranch := ""
    RequiredReviewApprovals := 0
    Labels := []
    States := [] }

/-- A concrete PullRequestObject used in example runs. -/
def examplePRObject : PullRequestObject :=
  { ID := "id1"
    Number := 42
    Title := "title"
    URL := "url"
    BaseRefName := "main"
    HeadRefName := "topic"
    RepositoryURL := "repo-url"
    IsCrossRepository := false
    IsDraft := false
    State := "OPEN"
    UpdatedAt := "2020-01-01T00:00:00Z" }

/-- A concrete CommitObject used in example runs. -/
def exampleCommit : CommitObject :=
  { ID := "cid"
    OID := "abc123"
    CommittedDate := "2020-01-01T00:00:00Z"
    Message := "msg"
    AuthorLogin := "alice"
    AuthorEmail := "alice@x" }

/-- A concrete PullRequest with Number 42, tip OID "abc123",
approved-review count 2 and state OPEN. -/
def examplePR : PullRequest :=
  { pullRequestObject := examplePRObject
    Tip := exampleCommit
    ApprovedReviewCount := 2
    Labels := [] }

/-- First page of the concrete two-page search result: one node, and
the has-next flag set with end cursor "cursor1". -/
def searchPageOne : SearchPage :=
  { nodes := [{ pullRequestObject := examplePRObject
                reviewsTotalCount := 1
                commitEdges := [exampleCommit]
                labelEdges := [] }]
    endCursor := "cursor1"
    hasNextPage := true }

/-- Second page of the concrete two-page search result: the
has-next flag is false. -/
def searchPageTwo : SearchPage :=
  { nodes := [{ pullRequestObject := examplePRObject
                reviewsTotalCount := 0
                commitEdges := [exampleCommit]
                labelEdges := [] }]
    endCursor := ""
    hasNextPage := false }

/-- A provider serving the two-page sequence: the start sentinel ""
yields page one (has-next true), the cursor "cursor1" yields page two
(has-next false). -/
def twoPageProvider : String → SearchPage :=
  fun cursor => if cursor = "cursor1" then searchPageTwo else searchPageOne

/-- A search node carrying two label edges. -/
def exampleNodeTwoLabels : SearchNode :=
  { pullRequestObject := examplePRObject
    reviewsTotalCount := 1
    commitEdges := [exampleCommit]
    labelEdges := [{ Name := "bug" }, { Name := "ui" }] }

/-- The PullRequest SearchPullRequests emits for that node. -/
def examplePRTwoLabels : PullRequest :=
  { pullRequestObject := examplePRObject
    Tip := exampleCommit
    ApprovedReviewCount := 1
    Labels := nodeLabels exampleNodeTwoLabels }

/-- A commit whose OID differs from the example commit's. -/
def commitOther : CommitObject :=
  { ID := "cid0"
    OID := "def456"
    CommittedDate := "2020-01-02T00:00:00Z"
    Message := "other"
    AuthorLogin := "bob"
    AuthorEmail := "bob@x" }

/-- A second commit with the same OID as the example commit (a
duplicate-OID window entry). -/
def commitDup : CommitObject :=
  { ID := "cid2"
    OID := "abc123"
    CommittedDate := "2020-01-03T00:00:00Z"
    Message := "dup"
    AuthorLogin := "carol"
    AuthorEmail := "carol@x" }

/-- A commit window holding a non-matching commit, the target commit,
and then a duplicate of the target OID. -/
def exampleWindowDup : PRWindow :=
  { pullRequestObject := examplePRObject
    commitEdges := [commitOther, exampleCommit, commitDup] }

/-- Provider answering every PR number with the duplicate-OID window. -/
def windowProviderDup : Int → PRWindow :=
  fun _ => exampleWindowDup

/-- A 100-commit window in which every OID is "abc123". -/
def window100 : PRWindow :=
  { pullRequestObject := examplePRObject
    commitEdges := List.replicate 100 exampleCommit }

/-- Provider answering every PR number with the 100-commit window. -/
def windowProvider100 : Int → PRWindow :=
  fun _ => window100

/-- Three comments: two authored by the viewer "bot" (ids 1 and 3),
one by someone else (id 2). -/
def resp3 : CommentsResponse :=
  { viewerLogin := "bot"
    commentEdges :=
      [{ databaseId := 1, authorLogin := "bot" },
       { databaseId := 2, authorLogin := "alice" },
       { databaseId := 3, authorLogin := "bot" }] }

/-- A deletion oracle on which every delete succeeds. -/
def delAllOk : Int → Option String :=
  fun _ => none

/-- A deletion oracle failing on comment id 1 and succeeding
elsewhere. -/
def delFailFirst : Int → Option String :=
  fun i => if i = 1 then some ("boom") else none

/-- A concrete environment for UpdateCommitStatus runs. -/
def env0 : Env :=
  { atcExternalURL := "http://atc", buildID := "7" }

/-- A Source that Validate accepts. -/
def srcGood : Source :=
  { emptySource with
      AccessToken := "tok"
      Repository := "o/r"
      States := ["OPEN", "MERGED"] }

/-- A Source whose States contain the invalid literal "BAD" after a
valid entry. -/
def srcBadState : Source :=
  { emptySource with
      AccessToken := "tok"
      Repository := "o/r"
      States := ["OPEN", "BAD"] }

end Resource

namespace Resource

/-- Helper: the split of a character list always has at least one
part (Go strings.Split never returns an empty slice). -/
theorem goSplitChar_ne_nil (sep : Char) (l : List Char) : goSplitChar sep l ≠ [] := by
  induction l with
  | nil => simp [goSplitChar]
  | cons c rest ih =>
    by_cases hc : c = sep
    · simp [goSplitChar, hc]
    · simp only [goSplitChar, if_neg hc]
      cases hgs : goSplitChar sep rest with
      | nil => simp
      | cons g gs => simp

/-- Helper: the `parts[0], parts[1]` branch of parseRepository. -/
theorem parseRepository_of_two (s a b : String) (h : goSplit '/' s = [a, b]) :
    parseRepository s = Except.ok (a, b) := by
  unfold parseRepository
  rw [h]

/-- Helper: the `len(parts) != 2` branch of parseRepository. -/
theorem parseRepository_of_not_two (s : String) (h : (goSplit '/' s).length ≠ 2) :
    parseRepository s = Except.error ("malformed repository") := by
  unfold parseRepository
  rcases hg : goSplit '/' s with _ | ⟨a, _ | ⟨b, _ | ⟨c, t⟩⟩⟩
  · rfl
  · rfl
  · rw [hg] at h
    simp at h
  · rfl

/-- Claim C2 (counterexample): the claim says client construction
fails for every repository string whose split has an empty part, in
particular "owner/"; in fact NewGithubClient accepts "owner/" and
yields owner "owner" with an empty repository name — parseRepository
checks only the part count, never non-emptiness. -/
theorem newGithubClient_accepts_empty_name :
    NewGithubClient { emptySource with Repository := "owner/", AccessToken := "tok" } =
      Except.ok ({ Owner := "owner", Repository := "" } : GithubClient) := rfl

/-- Claim C2 (amended): constructing the client splits the repository
identifier on "/": "owner/name" yields owner "owner" and name "name",
and construction fails with the malformed-repository error exactly
when the split does not yield exactly two parts (so "owner" and
"a/b/c" fail); the two parts may be empty ("owner/" is accepted with
an empty name). -/
theorem parseRepository_splits_on_slash :
    parseRepository ("owner/name") = Except.ok ("owner", "name") ∧
    parseRepository ("owner") = Except.error ("malformed repository") ∧
    parseRepository ("a/b/c") = Except.error ("malformed repository") ∧
    (∀ s a b, goSplit '/' s = [a, b] → parseRepository s = Except.ok (a, b)) ∧
    (∀ s, (goSplit '/' s).length ≠ 2 →
      parseRepository s = Except.error ("malformed repository")) ∧
    (∀ src : Source, ∀ o r, parseRepository src.Repository = Except.ok (o, r) →
      NewGithubClient src = Except.ok ({ Owner := o, Repository := r } : GithubClient)) ∧
    (∀ src : Source, ∀ e, parseRepository src.Repository = Except.error e →
      NewGithubClient src = Except.error e) := by
  refine ⟨rfl, rfl, rfl, parseRepository_of_two, parseRepository_of_not_two, ?_, ?_⟩
  · intro src o r h
    unfold NewGithubClient
    rw [h]
  · intro src e h
    unfold NewGithubClient
    rw [h]

/-- Claim C2 witness: the amended theorem applied at "x/y". -/
theorem parseRepository_splits_on_slash_witness :
    parseRepository ("x/y") = Except.ok ("x", "y") :=
  parseRepository_splits_on_slash.2.2.2.1 ("x/y") ("x") ("y") (by rfl)

/-- Claim C4: version derivation is a pure total mapping with no error
path: every field of NewVersion p is the stated projection of p, and
the concrete PullRequest with Number 42, tip OID "abc123", timestamp
"2020-01-01T00:00:00Z", count 2 and state OPEN maps to the Version
with PR "42", Commit "abc123", that timestamp, count "2" and state
OPEN. -/
theorem newVersion_pure_mapping :
    (∀ p : PullRequest,
      NewVersion p =
        ({ PR := goItoa p.pullRequestObject.Number
           Commit := p.Tip.OID
           UpdatedTime := p.pullRequestObject.UpdatedAt
           ApprovedReviewCount := goItoa p.ApprovedReviewCount
           State := p.pullRequestObject.State } : Version)) ∧
    NewVersion examplePR =
      ({ PR := "42"
         Commit := "abc123"
         UpdatedTime := "2020-01-01T00:00:00Z"
         ApprovedReviewCount := "2"
         State := "OPEN" } : Version) :=
  ⟨fun _ => rfl, by decide⟩

/-- Claim C9: the commitRef argument of GetChangedFiles does not
influence its result: for any client, provider, PR number and fuel,
two calls differing only in commitRef issue the same query sequence
and return the same file list. -/
theorem getChangedFiles_ignores_commitRef
    (client : GithubClient) (provider : FileQueryVars → FilePage)
    (prNumber r1 r2 : String) (fuel : Nat) :
    GetChangedFiles client provider prNumber r1 fuel =
      GetChangedFiles client provider prNumber r2 fuel := rfl

/-- Claim C1 (code bug): on the two-page search result — the first
page's has-next flag true, the second's false — the loop of
SearchPullRequests never terminates, whatever the fuel bound and
accumulator: the search query carries no cursor variable, so every
iteration refetches the first page and the loop never observes the
false has-next flag that the claim says ends the traversal. -/
theorem searchPullRequests_no_progress_two_pages :
    (∀ (fuel : Nat) (acc : List PullRequest),
      searchPullRequestsLoop twoPageProvider fuel acc = none) ∧
    (∀ fuel : Nat, SearchPullRequests twoPageProvider fuel = none) := by
  have key : ∀ (fuel : Nat) (acc : List PullRequest),
      searchPullRequestsLoop twoPageProvider fuel acc = none := by
    intro fuel
    induction fuel with
    | zero => intro acc; rfl
    | succ n ih =>
      intro acc
      have hpage : twoPageProvider ("") = searchPageOne := by decide
      simp only [searchPullRequestsLoop, hpage]
      have hnext : searchPageOne.hasNextPage = true := by decide
      rw [if_pos hnext]
      exact ih _
  exact ⟨key, fun fuel => key fuel []⟩

/-- Helper: a left fold that appends one element at a time appends the
whole list. -/
theorem foldl_push_eq_append {α : Type} (l init : List α) :
    l.foldl (fun acc x => acc ++ [x]) init = init ++ l := by
  induction l generalizing init with
  | nil => simp
  | cons x xs ih =>
    simp only [List.foldl_cons, ih, List.append_assoc, List.singleton_append]

/-- Helper: the label slice of a node is the zero-valued allocation
followed by the fetched labels. -/
theorem nodeLabels_eq (n : SearchNode) :
    nodeLabels n =
      List.replicate n.labelEdges.length ({ Name := "" } : LabelObject) ++ n.labelEdges :=
  foldl_push_eq_append _ _

/-- Claim C10: for a node with k label edges, every PullRequest the
search loop emits for it carries 2·k labels — the first k are
zero-valued LabelObjects from the slice allocated with length k, and
only the last k are the fetched labels appended after them. -/
theorem searchPullRequests_labels_doubled :
    ∀ (n : SearchNode) (p : PullRequest), p ∈ processNode n →
      p.Labels.length = 2 * n.labelEdges.length ∧
      p.Labels.take n.labelEdges.length =
        List.replicate n.labelEdges.length ({ Name := "" } : LabelObject) ∧
      p.Labels.drop n.labelEdges.length = n.labelEdges := by
  intro n p hp
  have hl : p.Labels = nodeLabels n := by
    unfold processNode at hp
    rw [List.mem_map] at hp
    obtain ⟨c, _, rfl⟩ := hp
    rfl
  rw [hl, nodeLabels_eq]
  refine ⟨?_, ?_, ?_⟩
  · simp [List.length_append, List.length_replicate, two_mul]
  · rw [List.take_left']
    exact List.length_replicate _ _
  · rw [List.drop_left']
    exact List.length_replicate _ _

/-- Claim C10 witness: the node with label edges "bug" and "ui" yields
a PullRequest with four labels — two empty-named then the two fetched
ones. -/
theorem searchPullRequests_labels_doubled_witness :
    examplePRTwoLabels.Labels.length = 2 * exampleNodeTwoLabels.labelEdges.length ∧
    examplePRTwoLabels.Labels.take exampleNodeTwoLabels.labelEdges.length =
      List.replicate exampleNodeTwoLabels.labelEdges.length ({ Name := "" } : LabelObject) ∧
    examplePRTwoLabels.Labels.drop exampleNodeTwoLabels.labelEdges.length =
      exampleNodeTwoLabels.labelEdges :=
  searchPullRequests_labels_doubled exampleNodeTwoLabels examplePRTwoLabels (by decide)

/-- Helper: the commit scan of GetPullRequest returns the first
matching commit, whatever follows it. -/
theorem commitScan_first (obj : PullRequestObject) (ref : String)
    (pre : List CommitObject) (c : CommitObject) (post : List CommitObject)
    (hpre : ∀ d ∈ pre, d.OID ≠ ref) (hc : c.OID = ref) :
    commitScan obj ref (pre ++ c :: post) =
      Except.ok ({ pullRequestObject := obj
                   Tip := c
                   ApprovedReviewCount := 0
                   Labels := [] } : PullRequest) := by
  induction pre with
  | nil =>
    simp only [List.nil_append, commitScan]
    rw [if_pos hc]
  | cons d ds ih =>
    have hd : d.OID ≠ ref := hpre d (List.mem_cons_self d ds)
    simp only [List.cons_append, commitScan]
    rw [if_neg hd]
    exact ih (fun x hx => hpre x (List.mem_cons_of_mem d hx))

/-- Helper: the commit scan fails with the not-found error when no
commit in the window matches. -/
theorem commitScan_none (obj : PullRequestObject) (ref : String)
    (l : List CommitObject) (h : ∀ d ∈ l, d.OID ≠ ref) :
    commitScan obj ref l =
      Except.error ("commit with ref '" ++ ref ++ "' does not exist") := by
  induction l with
  | nil => rfl
  | cons d ds ih =>
    have hd : d.OID ≠ ref := h d (List.mem_cons_self d ds)
    simp only [commitScan]
    rw [if_neg hd]
    exact ih (fun x hx => h x (List.mem_cons_of_mem d hx))

/-- Claim C5: when the fetched window contains a commit with the
requested OID, GetPullRequest returns the PullRequest built from the
first such commit — whatever follows it, duplicates included — and
populates only the PullRequestObject and the Tip (the other fields
keep their zero values). -/
theorem getPullRequest_first_match
    (provider : Int → PRWindow) (prNumber commitRef : String) (pr : Int)
    (hpn : goAtoi prNumber = some pr)
    (pre : List CommitObject) (c : CommitObject) (post : List CommitObject)
    (hw : (provider pr).commitEdges = pre ++ c :: post)
    (hpre : ∀ d ∈ pre, d.OID ≠ commitRef)
    (hc : c.OID = commitRef) :
    GetPullRequest provider prNumber commitRef =
      Except.ok ({ pullRequestObject := (provider pr).pullRequestObject
                   Tip := c
                   ApprovedReviewCount := 0
                   Labels := [] } : PullRequest) := by
  unfold GetPullRequest
  rw [hpn]
  show commitScan (provider pr).pullRequestObject commitRef (provider pr).commitEdges = _
  rw [hw]
  exact commitScan_first _ _ pre c post hpre hc

/-- Claim C5 witness: on the window [other, target, duplicate] the
first match (the middle commit) wins and only object and tip are
populated. -/
theorem getPullRequest_first_match_witness :
    GetPullRequest windowProviderDup ("42") ("abc123") =
      Except.ok ({ pullRequestObject := (windowProviderDup 42).pullRequestObject
                   Tip := exampleCommit
                   ApprovedReviewCount := 0
                   Labels := [] } : PullRequest) :=
  getPullRequest_first_match windowProviderDup ("42") ("abc123") 42 (by decide)
    [commitOther] exampleCommit [commitDup] (by rfl)
    (by intro d hd; simp only [List.mem_singleton] at hd; subst hd; decide)
    (by decide)

/-- Claim C6: when no commit of the fetched window (here of any size,
covering the 100-commit window) has the requested OID, GetPullRequest
returns the distinct not-found error whose text names the ref, and no
PullRequest value alongside it (the Except.error constructor carries
no pull request). -/
theorem getPullRequest_not_found
    (provider : Int → PRWindow) (prNumber commitRef : String) (pr : Int)
    (hpn : goAtoi prNumber = some pr)
    (h : ∀ d ∈ (provider pr).commitEdges, d.OID ≠ commitRef) :
    GetPullRequest provider prNumber commitRef =
      Except.error ("commit with ref '" ++ commitRef ++ "' does not exist") := by
  unfold GetPullRequest
  rw [hpn]
  show commitScan (provider pr).pullRequestObject commitRef (provider pr).commitEdges = _
  exact commitScan_none _ _ _ h

/-- Claim C6 witness: a 100-commit window without the ref "zzz" yields
the not-found error naming "zzz". -/
theorem getPullRequest_not_found_witness :
    GetPullRequest windowProvider100 ("7") ("zzz") =
      Except.error ("commit with ref 'zzz' does not exist") :=
  getPullRequest_not_found windowProvider100 ("7") ("zzz") 7 (by decide) (by decide)

/-- Helper: the state loop of Validate accepts a list of valid
literals. -/
theorem checkStates_all_valid (l : List String)
    (h : ∀ x ∈ l, x = "OPEN" ∨ x = "CLOSED" ∨ x = "MERGED") :
    checkStates l = none := by
  induction l with
  | nil => rfl
  | cons x xs ih =>
    have hx := h x (List.mem_cons_self x xs)
    simp only [checkStates]
    rw [if_pos hx]
    exact ih (fun y hy => h y (List.mem_cons_of_mem x hy))

/-- Helper: the state loop of Validate reports the first invalid
literal. -/
theorem checkStates_first_bad (pre : List String) (st : String) (post : List String)
    (hpre : ∀ x ∈ pre, x = "OPEN" ∨ x = "CLOSED" ∨ x = "MERGED")
    (hst : ¬(st = "OPEN" ∨ st = "CLOSED" ∨ st = "MERGED")) :
    checkStates (pre ++ st :: post) = some (stateErrMsg st) := by
  induction pre with
  | nil =>
    simp only [List.nil_append, checkStates]
    rw [if_neg hst]
  | cons x xs ih =>
    have hx := hpre x (List.mem_cons_self x xs)
    simp only [List.cons_append, checkStates]
    rw [if_pos hx]
    exact ih (fun y hy => hpre y (List.mem_cons_of_mem x hy))

/-- Claim C3: Validate checks its rules in order and returns the first
failure — empty token, then empty repository, then a lone endpoint
override (either direction), then the first allowed-states entry
outside OPEN/CLOSED/MERGED, naming it in the error; with no failing
rule it returns nil.  (The Lean model is a pure function of the
Source, matching the Go method, which reads but never writes its
receiver.) -/
theorem validate_first_failure :
    ∀ s : Source,
      (s.AccessToken = "" → s.Validate = some ("access_token must be set")) ∧
      (s.AccessToken ≠ "" → s.Repository = "" →
        s.Validate = some ("repository must be set")) ∧
      (s.AccessToken ≠ "" → s.Repository ≠ "" → s.V3Endpoint ≠ "" → s.V4Endpoint = "" →
        s.Validate = some ("v4_endpoint must be set together with v3_endpoint")) ∧
      (s.AccessToken ≠ "" → s.Repository ≠ "" → s.V4Endpoint ≠ "" → s.V3Endpoint = "" →
        s.Validate = some ("v3_endpoint must be set together with v4_endpoint")) ∧
      (s.AccessToken ≠ "" → s.Repository ≠ "" → (s.V3Endpoint = "" ↔ s.V4Endpoint = "") →
        ∀ pre st post, s.States = pre ++ st :: post →
          (∀ x ∈ pre, x = "OPEN" ∨ x = "CLOSED" ∨ x = "MERGED") →
          ¬(st = "OPEN" ∨ st = "CLOSED" ∨ st = "MERGED") →
          s.Validate = some (stateErrMsg st)) ∧
      (s.AccessToken ≠ "" → s.Repository ≠ "" → (s.V3Endpoint = "" ↔ s.V4Endpoint = "") →
        (∀ x ∈ s.States, x = "OPEN" ∨ x = "CLOSED" ∨ x = "MERGED") →
        s.Validate = none) := by
  intro s
  refine ⟨?_, ?_, ?_, ?_, ?_, ?_⟩
  · intro h1
    unfold Source.Validate
    rw [if_pos h1]
  · intro h1 h2
    unfold Source.Validate
    rw [if_neg h1, if_pos h2]
  · intro h1 h2 h3 h4
    unfold Source.Validate
    rw [if_neg h1, if_neg h2, if_pos ⟨h3, h4⟩]
  · intro h1 h2 h3 h4
    unfold Source.Validate
    rw [if_neg h1, if_neg h2, if_neg (fun hh => hh.1 h4), if_pos ⟨h3, h4⟩]
  · intro h1 h2 hiff pre st post hsplit hpre hst
    unfold Source.Validate
    rw [if_neg h1, if_neg h2,
      if_neg (fun hh => hh.1 (hiff.mpr hh.2)),
      if_neg (fun hh => hh.1 (hiff.mp hh.2)),
      hsplit]
    exact checkStates_first_bad pre st post hpre hst
  · intro h1 h2 hiff hall
    unfold Source.Validate
    rw [if_neg h1, if_neg h2,
      if_neg (fun hh => hh.1 (hiff.mpr hh.2)),
      if_neg (fun hh => hh.1 (hiff.mp hh.2))]
    exact checkStates_all_valid _ hall

/-- Claim C3 witness: the source with States ["OPEN", "BAD"] fails
naming "BAD", and a fully valid source passes. -/
theorem validate_first_failure_witness :
    Source.Validate srcBadState = some (stateErrMsg ("BAD")) ∧
    Source.Validate srcGood = none :=
  ⟨(validate_first_failure srcBadState).2.2.2.2.1 (by decide) (by decide) (by decide)
      ["OPEN"] ("BAD") [] (by rfl) (by decide) (by decide),
    (validate_first_failure srcGood).2.2.2.2.2 (by decide) (by decide) (by decide) (by decide)⟩

/-- Helper: when every deletion of a viewer-authored comment succeeds,
the loop attempts exactly the viewer's comments, in order, and
returns nil. -/
theorem deleteLoop_all_success (viewer : String) (del : Int → Option String)
    (l : List CommentNode)
    (h : ∀ c ∈ l, c.authorLogin = viewer → del c.databaseId = none) :
    deleteCommentsLoop viewer del l =
      ((l.filter (fun c => c.authorLogin == viewer)).map (fun c => c.databaseId), none) := by
  induction l with
  | nil => rfl
  | cons e rest ih =>
    have ihr := ih (fun x hx hax => h x (List.mem_cons_of_mem e hx) hax)
    by_cases he : e.authorLogin = viewer
    · have hd := h e (List.mem_cons_self e rest) he
      simp only [deleteCommentsLoop]
      rw [if_pos he, hd]
      rw [ihr]
      simp [List.filter_cons, he]
    · simp only [deleteCommentsLoop]
      rw [if_neg he, ihr]
      simp [List.filter_cons, he]

/-- Helper: the loop aborts at the first failing deletion: the
attempted ids are the viewer-authored ids before the failure plus the
failing one, the error is surfaced, and no later comment is
touched. -/
theorem deleteLoop_aborts (viewer : String) (del : Int → Option String)
    (pre : List CommentNode) (c : CommentNode) (post : List CommentNode) (err : String)
    (hpre : ∀ d ∈ pre, d.authorLogin = viewer → del d.databaseId = none)
    (hc : c.authorLogin = viewer) (herr : del c.databaseId = some err) :
    deleteCommentsLoop viewer del (pre ++ c :: post) =
      ((pre.filter (fun d => d.authorLogin == viewer)).map (fun d => d.databaseId)
        ++ [c.databaseId], some err) := by
  induction pre with
  | nil =>
    simp only [List.nil_append, deleteCommentsLoop]
    rw [if_pos hc, herr]
    simp
  | cons d ds ih =>
    have ihr := ih (fun x hx hax => hpre x (List.mem_cons_of_mem d hx) hax)
    by_cases hd : d.authorLogin = viewer
    · have hdel := hpre d (List.mem_cons_self d ds) hd
      simp only [List.cons_append, deleteCommentsLoop]
      rw [if_pos hd, hdel]
      simp only [List.append_eq]
      rw [ihr]
      simp [List.filter_cons, hd]
    · simp only [List.cons_append, deleteCommentsLoop]
      rw [if_neg hd]
      simp only [List.append_eq]
      rw [ihr]
      simp [List.filter_cons, hd]

/-- Claim C7: DeletePreviousComments attempts a deletion for exactly
the comments whose author login equals the viewer's login, in list
order; when every such deletion succeeds all of them are attempted and
nil is returned, and when one fails that error is returned at once —
the attempted ids stop at the failing one, so no later deletion is
tried, and the earlier ones are not rolled back (they stay in the
attempted list). -/
theorem deletePreviousComments_sequential :
    ∀ (resp : CommentsResponse) (del : Int → Option String) (prNumber : String) (pr : Int),
      goAtoi prNumber = some pr →
      ((∀ c ∈ resp.commentEdges, c.authorLogin = resp.viewerLogin → del c.databaseId = none) →
        DeletePreviousComments resp del prNumber =
          ((resp.commentEdges.filter (fun c => c.authorLogin == resp.viewerLogin)).map
              (fun c => c.databaseId), none)) ∧
      (∀ pre c post err, resp.commentEdges = pre ++ c :: post →
        c.authorLogin = resp.viewerLogin →
        (∀ d ∈ pre, d.authorLogin = resp.viewerLogin → del d.databaseId = none) →
        del c.databaseId = some err →
        DeletePreviousComments resp del prNumber =
          ((pre.filter (fun d => d.authorLogin == resp.viewerLogin)).map
              (fun d => d.databaseId) ++ [c.databaseId], some err)) := by
  intro resp del prNumber pr hpn
  constructor
  · intro hall
    unfold DeletePreviousComments
    rw [hpn]
    exact deleteLoop_all_success _ _ _ hall
  · intro pre c post err hsplit hc hpre herr
    unfold DeletePreviousComments
    rw [hpn]
    show deleteCommentsLoop resp.viewerLogin del resp.commentEdges = _
    rw [hsplit]
    exact deleteLoop_aborts _ _ _ _ _ _ hpre hc herr

/-- Claim C7 witness: with three comments of which two are
viewer-authored, exactly the two deletions (ids 1 and 3) are attempted
when all succeed; when the first deletion fails, only id 1 is
attempted — the second viewer comment is never touched — and the
error is surfaced. -/
theorem deletePreviousComments_sequential_witness :
    DeletePreviousComments resp3 delAllOk ("5") = ([1, 3], none) ∧
    DeletePreviousComments resp3 delFailFirst ("5") = ([1], some ("boom")) :=
  ⟨(deletePreviousComments_sequential resp3 delAllOk ("5") 5 (by decide)).1
      (fun _ _ _ => rfl),
    (deletePreviousComments_sequential resp3 delFailFirst ("5") 5 (by decide)).2
      [] ({ databaseId := 1, authorLogin := "bot" })
      [{ databaseId := 2, authorLogin := "alice" }, { databaseId := 3, authorLogin := "bot" }]
      ("boom") (by rfl) (by rfl)
      (fun d hd => absurd hd (List.not_mem_nil d)) (by decide)⟩

/-- Claim C8: the status sent to the provider is the lower-cased input
status, the context is the path-join of baseContext and statusContext
after defaulting, defaults apply only to empty parameters — all-empty
contexts yield "concourse-ci/status", an empty description yields a
description containing the literal status text, an empty targetURL
yields the "/"-join of the external-URL environment value, "builds"
and the build-ID environment value — and non-empty parameters pass
through unchanged. -/
theorem updateCommitStatus_payload :
    ∀ (env : Env) (commitRef baseContext statusContext status targetURL description : String),
      ((UpdateCommitStatus env commitRef baseContext statusContext status targetURL
          description).State = goToLower status) ∧
      ((UpdateCommitStatus env commitRef baseContext statusContext status targetURL
          description).Context =
        pathJoin (if baseContext = "" then "concourse-ci" else baseContext)
          (if statusContext = "" then "status" else statusContext)) ∧
      (baseContext = "" → statusContext = "" →
        (UpdateCommitStatus env commitRef baseContext statusContext status targetURL
          description).Context = "concourse-ci/status") ∧
      (description = "" →
        (UpdateCommitStatus env commitRef baseContext statusContext status targetURL
          description).Description = "Concourse CI build " ++ status) ∧
      (description ≠ "" →
        (UpdateCommitStatus env commitRef baseContext statusContext status targetURL
          description).Description = description) ∧
      (targetURL = "" →
        (UpdateCommitStatus env commitRef baseContext statusContext status targetURL
          description).TargetURL = goJoin [env.atcExternalURL, "builds", env.buildID] "/") ∧
      (targetURL ≠ "" →
        (UpdateCommitStatus env commitRef baseContext statusContext status targetURL
          description).TargetURL = targetURL) := by
  intro env commitRef baseContext statusContext status targetURL description
  refine ⟨rfl, rfl, ?_, ?_, ?_, ?_, ?_⟩
  · intro hb hs
    subst hb; subst hs
    show pathJoin ("concourse-ci") ("status") = "concourse-ci/status"
    decide
  · intro hd
    subst hd
    rfl
  · intro hd
    simp [UpdateCommitStatus, hd]
  · intro ht
    subst ht
    rfl
  · intro ht
    simp [UpdateCommitStatus, ht]

/-- Claim C8 witness: with every optional argument empty, the payload
context is "concourse-ci/status", the state is the lower-cased status,
the description embeds the status text, and the target URL is the
"/"-join of the environment values. -/
theorem updateCommitStatus_payload_witness :
    (UpdateCommitStatus env0 ("ref") ("") ("") ("FAILURE") ("") ("")).Context =
        "concourse-ci/status" ∧
    (UpdateCommitStatus env0 ("ref") ("") ("") ("FAILURE") ("") ("")).State =
        goToLower ("FAILURE") ∧
    (UpdateCommitStatus env0 ("ref") ("") ("") ("FAILURE") ("") ("")).Description =
        "Concourse CI build " ++ "FAILURE" ∧
    (UpdateCommitStatus env0 ("ref") ("") ("") ("FAILURE") ("") ("")).TargetURL =
        goJoin [env0.atcExternalURL, "builds", env0.buildID] "/" :=
  ⟨(updateCommitStatus_payload env0 ("ref") ("") ("") ("FAILURE") ("") ("")).2.2.1 rfl rfl,
    (updateCommitStatus_payload env0 ("ref") ("") ("") ("FAILURE") ("") ("")).1,
    (updateCommitStatus_payload env0 ("ref") ("") ("") ("FAILURE") ("") ("")).2.2.2.1 rfl,
    (updateCommitStatus_payload env0 ("ref") ("") ("") ("FAILURE") ("") ("")).2.2.2.2.2.1 rfl⟩

end Resource
